import Mathlib

/-!
# Verification of the PDF-keyword → Wikidata entity linker (`app.py`)

Shallow embedding of the core logic of the application:

* the text chunker `extract_text_from_pdf` (whitespace tokens grouped into
  windows of at most `chunk_size` words, each window re-joined with spaces);
* the frequency aggregation `Counter(all_entities)`;
* the entity resolver `search_wikidata` (HTTP status check, JSON parse,
  truthiness test on the `search` list, first match returned);
* the statement fetcher `get_all_statements` (SPARQL response flattening and
  the rank-label `BIND` classification);
* the Streamlit session-state controller (`select_qid`, `go_back`, and the
  completion block of a processing run).

External effects (PDF parsing, the KeyBERT model, the network, the UI
rendering) are modelled as parameters: the PDF text arrives as its
whitespace-token list, the keyphrase model as the per-chunk keyword lists it
returned, and each HTTP interaction as the response the server sent.
-/

namespace App

/-! ## Text chunker (`extract_text_from_pdf`, app.py lines 13-18)

The source computes `words = text.split()` (whitespace tokens) and then
`chunks = [" ".join(words[i:i+chunk_size]) for i in range(0, len(words), chunk_size)]`.
`chunkWords` embeds the grouping `words[i:i+chunk_size]` as it is traversed by
the `range` loop with step `chunk_size`; `extract_text_from_pdf` re-joins each
group with single spaces.  A `chunk_size` of `0` makes the Python `range`
raise `ValueError`; the embedding returns `[]` there and every theorem assumes
`0 < chunk_size`. -/

def chunkWords (words : List String) (chunk_size : Nat) : List (List String) :=
  match words, chunk_size with
  | [], _ => []
  | _ :: _, 0 => []
  | w :: rest, c + 1 => (w :: rest).take (c + 1) :: chunkWords (rest.drop c) (c + 1)
termination_by words.length
decreasing_by
  simp only [List.length_drop, List.length_cons]
  omega

def extract_text_from_pdf (words : List String) (chunk_size : Nat) : List String :=
  (chunkWords words chunk_size).map (fun g => String.intercalate " " g)

/-! ## Frequency aggregator (`Counter(all_entities)`, app.py lines 134-139)

The run concatenates the per-chunk keyword lists into `all_entities` and
builds `Counter(all_entities)`.  A Python `Counter` maps each distinct element
to its multiplicity, and iterates its keys in first-insertion order.
`counterOf` embeds the count lookup, `firstSeenAux`/`counterKeys` the
first-seen key order, and `counterItems` the `counts.items()` view used by the
resolution loop. -/

def counterOf (l : List String) (x : String) : Nat := l.count x

def firstSeenAux (seen : List String) : List String → List String
  | [] => []
  | a :: l => if a ∈ seen then firstSeenAux seen l else a :: firstSeenAux (a :: seen) l

def counterKeys (l : List String) : List String := firstSeenAux [] l

def counterItems (l : List String) : List (String × Nat) :=
  (counterKeys l).map (fun k => (k, counterOf l k))

/-! ## Entity resolver (`search_wikidata`, app.py lines 29-53)

The resolver issues one GET against `wbsearchentities`.  A response is
embedded as the status code together with the parse of its body:
`body = none` stands for a body `r.json()` cannot parse, and inside a parsed
body `search = none` stands for a JSON object without a `search` key (the
`data.get("search")` truthiness test treats it like the empty list).  On a
200-status parseable response with a non-empty `search` list the function
returns `(id, label)` of the first match, otherwise `none`. -/

structure SearchMatch where
  id : String
  label : String
  deriving DecidableEq, Repr

structure SearchBody where
  search : Option (List SearchMatch)
  deriving DecidableEq, Repr

structure SearchHttpResponse where
  status_code : Nat
  body : Option SearchBody
  deriving DecidableEq, Repr

def search_wikidata (r : SearchHttpResponse) : Option (String × String) :=
  if r.status_code ≠ 200 then none
  else
    match r.body with
    | none => none
    | some data =>
      match data.search with
      | some (m :: _) => some (m.id, m.label)
      | some [] => none
      | none => none

/-! ## Statement fetcher (`get_all_statements`, app.py lines 56-104)

The SPARQL query's `BIND` classifies the raw statement rank into one of four
labels; `rankLabel` embeds that three-way comparison.  A result binding is
embedded as the optional `value` field of each variable (`none` stands for a
variable absent from the binding, exactly what `b.get(name, {}).get("value")`
yields `None` for).  `flattenBinding` embeds the row-building loop body, and
`get_all_statements` the fetch: `resp = none` stands for a body `r.json()`
cannot parse (the exception propagates), a missing `results` or `bindings`
key raises `KeyError` (also propagates), and a parsed `bindings` list is
mapped through `flattenBinding`. -/

def rankLabel (statementRank : String) : String :=
  if statementRank = "wikibase:NormalRank" then "Normal"
  else if statementRank = "wikibase:PreferredRank" then "Preferred"
  else if statementRank = "wikibase:DeprecatedRank" then "Deprecated"
  else "Unknown"

structure Binding where
  property : Option String
  propertyLabel : Option String
  statementValue : Option String
  statementValueLabel : Option String
  qualifierProperty : Option String
  qualifierPropertyLabel : Option String
  qualifierValue : Option String
  qualifierValueLabel : Option String
  unitOfMeasure : Option String
  unitOfMeasureLabel : Option String
  statementRankLabel : Option String
  deriving DecidableEq, Repr

structure StatementRow where
  property_id : Option String
  property : Option String
  value : Option String
  qualifier : Option String
  qualifier_value : Option String
  unit : Option String
  rank : Option String
  deriving DecidableEq, Repr

def lastUriSegment (uri : String) : String := (uri.splitOn "/").getLastD ""

def flattenBinding (b : Binding) : StatementRow :=
  let prop_uri := b.property.getD ""
  StatementRow.mk
    (if prop_uri ≠ "" then some (lastUriSegment prop_uri) else none)
    b.propertyLabel
    (match b.statementValueLabel with
     | some v => some v
     | none => b.statementValue)
    b.qualifierPropertyLabel
    b.qualifierValueLabel
    b.unitOfMeasureLabel
    b.statementRankLabel

structure SparqlResults where
  bindings : Option (List Binding)
  deriving DecidableEq, Repr

structure SparqlBody where
  results : Option SparqlResults
  deriving DecidableEq, Repr

inductive FetchError where
  | json_decode_error
  | key_error (key : String)
  deriving DecidableEq, Repr

def get_all_statements (resp : Option SparqlBody) : Except FetchError (List StatementRow) :=
  match resp with
  | none => Except.error FetchError.json_decode_error
  | some data =>
    match data.results with
    | none => Except.error (FetchError.key_error "results")
    | some res =>
      match res.bindings with
      | none => Except.error (FetchError.key_error "bindings")
      | some bs => Except.ok (bs.map flattenBinding)

/-! ## Interaction controller (Streamlit session state, app.py lines 107-210)

The session state holds `selected_qid` (an optional QID string) and
`results` (the rows shown in the keyword table).  `select_qid` and `go_back`
are the two button callbacks.  The displayed screen follows Python
truthiness: the detail block renders when `st.session_state.selected_qid` is
truthy (a non-`None`, non-empty string), the results block when `results` is
non-empty and the selection is not truthy.

`resolveRows` embeds the sequential lookup loop over `counts.items()` (rows
are appended only for keywords the resolver maps to an entity), and
`processCompletion` the completion block of a run: with no extracted keywords
or with an empty resolved list the state is left untouched and a warning is
shown; otherwise the results are replaced and the selection reset. -/

structure ResultRow where
  keyword : String
  count : Nat
  wikidata_label : String
  qid : String
  deriving DecidableEq, Repr

structure SessionState where
  selected_qid : Option String
  results : List ResultRow
  deriving DecidableEq, Repr

def select_qid (s : SessionState) (qid : String) : SessionState :=
  SessionState.mk (some qid) s.results

def go_back (s : SessionState) : SessionState :=
  SessionState.mk none s.results

def truthyQid : Option String → Bool
  | none => false
  | some q => q ≠ ""

inductive Screen where
  | RESULTS
  | DETAIL
  | BLANK
  deriving DecidableEq, Repr

def screen (s : SessionState) : Screen :=
  if truthyQid s.selected_qid then Screen.DETAIL
  else if s.results.isEmpty then Screen.BLANK
  else Screen.RESULTS

inductive Notice where
  | no_wikidata_matches
  | no_keywords
  deriving DecidableEq, Repr

def resolveRows (resolver : String → Option (String × String))
    (counts : List (String × Nat)) : List ResultRow :=
  counts.filterMap (fun p =>
    match resolver p.1 with
    | some (qid, wd_label) => some (ResultRow.mk p.1 p.2 wd_label qid)
    | none => none)

def processCompletion (resolver : String → Option (String × String))
    (all_entities : List String) (s : SessionState) : SessionState × Option Notice :=
  if all_entities.isEmpty then (s, some Notice.no_keywords)
  else
    let results := resolveRows resolver (counterItems all_entities)
    if results.isEmpty then (s, some Notice.no_wikidata_matches)
    else (SessionState.mk none results, none)

/-! ## Helper lemmas -/

theorem chunkWords_nil (c : Nat) : chunkWords [] c = [] := by
  rw [chunkWords]

theorem chunkWords_cons (w : String) (rest : List String) (c : Nat) :
    chunkWords (w :: rest) (c + 1) =
      (w :: rest).take (c + 1) :: chunkWords (rest.drop c) (c + 1) := by
  rw [chunkWords]

/-- Every produced group holds at most `c + 1` tokens. -/
theorem chunkWords_sizes (c : Nat) :
    ∀ (n : Nat) (words : List String), words.length ≤ n →
      ∀ ch ∈ chunkWords words (c + 1), ch.length ≤ c + 1 := by
  intro n
  induction n with
  | zero =>
    intro words h
    have hw : words = [] := List.eq_nil_of_length_eq_zero (Nat.le_zero.mp h)
    subst hw
    simp [chunkWords_nil]
  | succ n ih =>
    intro words h ch hch
    match words with
    | [] => simp [chunkWords_nil] at hch
    | w :: rest =>
      rw [chunkWords_cons] at hch
      rcases List.mem_cons.mp hch with h1 | h2
      · subst h1
        simp [List.length_take]
      · exact ih (rest.drop c)
          (by simp only [List.length_drop]; simp at h; omega) ch h2

/-- Concatenating the groups in order restores the token sequence. -/
theorem chunkWords_join (c : Nat) :
    ∀ (n : Nat) (words : List String), words.length ≤ n →
      (chunkWords words (c + 1)).flatten = words := by
  intro n
  induction n with
  | zero =>
    intro words h
    have hw : words = [] := List.eq_nil_of_length_eq_zero (Nat.le_zero.mp h)
    subst hw
    simp [chunkWords_nil]
  | succ n ih =>
    intro words h
    match words with
    | [] => simp [chunkWords_nil]
    | w :: rest =>
      have ihd := ih (rest.drop c)
        (by simp only [List.length_drop]; simp at h; omega)
      rw [chunkWords_cons, List.flatten_cons, ihd]
      show w :: (rest.take c ++ rest.drop c) = w :: rest
      rw [List.take_append_drop]

/-- The number of groups is `⌈words.length / (c+1)⌉` in its `Nat` form. -/
theorem chunkWords_length (c : Nat) :
    ∀ (n : Nat) (words : List String), words.length ≤ n →
      (chunkWords words (c + 1)).length = (words.length + c) / (c + 1) := by
  intro n
  induction n with
  | zero =>
    intro words h
    have hw : words = [] := List.eq_nil_of_length_eq_zero (Nat.le_zero.mp h)
    subst hw
    simp only [chunkWords_nil, List.length_nil, Nat.zero_add]
    exact (Nat.div_eq_of_lt (by omega)).symm
  | succ n ih =>
    intro words h
    match words with
    | [] =>
      simp only [chunkWords_nil, List.length_nil, Nat.zero_add]
      exact (Nat.div_eq_of_lt (by omega)).symm
    | w :: rest =>
      have ihd := ih (rest.drop c)
        (by simp only [List.length_drop]; simp at h; omega)
      rw [chunkWords_cons, List.length_cons, ihd]
      simp only [List.length_drop, List.length_cons]
      rcases le_or_lt rest.length c with hle | hlt
      · have h0 : rest.length - c = 0 := by omega
        rw [h0]
        have hL : (rest.length + 1 + c) / (c + 1) = 1 := by
          apply Nat.div_eq_of_lt_le <;> omega
        rw [hL]
        rw [Nat.div_eq_of_lt (by omega)]
      · have harg : rest.length - c + c = rest.length := by omega
        rw [harg]
        have hR : rest.length + 1 + c = rest.length + (c + 1) := by omega
        rw [hR, Nat.add_div_right _ (by omega)]

theorem mem_firstSeenAux (x : String) :
    ∀ (l seen : List String), x ∈ firstSeenAux seen l ↔ (x ∈ l ∧ x ∉ seen) := by
  intro l
  induction l with
  | nil => intro seen; simp [firstSeenAux]
  | cons a l ih =>
    intro seen
    rw [firstSeenAux]
    by_cases ha : a ∈ seen
    · rw [if_pos ha, ih]
      constructor
      · rintro ⟨hx, hs⟩
        exact ⟨List.mem_cons_of_mem a hx, hs⟩
      · rintro ⟨hx, hs⟩
        rcases List.mem_cons.mp hx with rfl | hx
        · exact absurd ha hs
        · exact ⟨hx, hs⟩
    · rw [if_neg ha]
      constructor
      · intro hx
        rcases List.mem_cons.mp hx with rfl | hx
        · exact ⟨List.mem_cons_self _ _, ha⟩
        · rcases (ih (a :: seen)).mp hx with ⟨h1, h2⟩
          refine ⟨List.mem_cons_of_mem a h1, fun hs => h2 (List.mem_cons_of_mem a hs)⟩
      · rintro ⟨hx, hs⟩
        rcases List.mem_cons.mp hx with rfl | hx
        · exact List.mem_cons_self _ _
        · by_cases hxa : x = a
          · subst hxa; exact List.mem_cons_self _ _
          · exact List.mem_cons_of_mem a
              ((ih (a :: seen)).mpr ⟨hx, by simp [hxa, hs]⟩)

theorem mem_counterKeys (x : String) (l : List String) :
    x ∈ counterKeys l ↔ x ∈ l := by
  rw [counterKeys, mem_firstSeenAux]
  simp

/-! ## Claim theorems -/

/-- C2: for an input of `W` whitespace-delimited words and any chunk size
`C > 0`, the chunker produces exactly `⌈W/C⌉` chunks, each holding at most
`C` tokens, the groups are consecutive and non-overlapping (their
concatenation in order is the original token sequence), and an empty input
yields zero chunks. -/
theorem chunker_correct (words : List String) (C : Nat) (hC : 0 < C) :
    (chunkWords words C).length = (words.length + C - 1) / C ∧
    (∀ ch ∈ chunkWords words C, ch.length ≤ C) ∧
    (chunkWords words C).flatten = words ∧
    (extract_text_from_pdf words C).length = (words.length + C - 1) / C ∧
    chunkWords [] C = [] := by
  obtain ⟨c, rfl⟩ : ∃ c, C = c + 1 := ⟨C - 1, by omega⟩
  have h1 := chunkWords_length c words.length words le_rfl
  have h2 := chunkWords_sizes c words.length words le_rfl
  have h3 := chunkWords_join c words.length words le_rfl
  refine ⟨?_, h2, h3, ?_, chunkWords_nil _⟩
  · rw [h1]
    congr 1
  · rw [extract_text_from_pdf, List.length_map, h1]
    congr 1

theorem chunker_correct_witness :
    0 < 2 ∧
    ((chunkWords ["a", "b", "c"] 2).length = (["a", "b", "c"].length + 2 - 1) / 2 ∧
    (∀ ch ∈ chunkWords ["a", "b", "c"] 2, ch.length ≤ 2) ∧
    (chunkWords ["a", "b", "c"] 2).flatten = ["a", "b", "c"] ∧
    (extract_text_from_pdf ["a", "b", "c"] 2).length = (["a", "b", "c"].length + 2 - 1) / 2 ∧
    chunkWords [] 2 = []) :=
  ⟨by decide, chunker_correct ["a", "b", "c"] 2 (by decide)⟩

/-- C3: for per-chunk keyphrase lists `L1..Ln`, each without internal
duplicates, the aggregated count of a phrase `P` is the number of lists that
contain `P`, and the key set of the aggregation is the union of the lists. -/
theorem aggregation_correct (Ls : List (List String))
    (h : ∀ L ∈ Ls, L.Nodup) (P : String) :
    counterOf Ls.flatten P = Ls.countP (fun L => decide (P ∈ L)) ∧
    (P ∈ counterKeys Ls.flatten ↔ ∃ L ∈ Ls, P ∈ L) := by
  constructor
  · induction Ls with
    | nil => simp [counterOf]
    | cons L Ls ih =>
      have hL : L.Nodup := h L (List.mem_cons_self _ _)
      have hRest : ∀ M ∈ Ls, M.Nodup := fun M hM => h M (List.mem_cons_of_mem _ hM)
      rw [List.flatten_cons, counterOf, List.count_append, List.countP_cons]
      rw [show (List.count P Ls.flatten) = counterOf Ls.flatten P from rfl, ih hRest]
      by_cases hPL : P ∈ L
      · rw [List.count_eq_one_of_mem hL hPL]
        simp [hPL]
        omega
      · rw [List.count_eq_zero.mpr hPL]
        simp [hPL]
  · rw [mem_counterKeys, List.mem_flatten]

theorem aggregation_correct_witness :
    (∀ L ∈ [["x", "y"], ["y"]], L.Nodup) ∧
    (counterOf [["x", "y"], ["y"]].flatten "y" =
      [["x", "y"], ["y"]].countP (fun L => decide ("y" ∈ L)) ∧
    ("y" ∈ counterKeys [["x", "y"], ["y"]].flatten ↔ ∃ L ∈ [["x", "y"], ["y"]], "y" ∈ L)) :=
  ⟨by decide, aggregation_correct [["x", "y"], ["y"]] (by decide) "y"⟩

/-- C4: on a parsed (status 200, well-formed JSON) search response, the
resolver returns exactly the first listed match's identifier and label; on an
empty or absent match list it returns nothing. -/
theorem resolver_first_match (r : SearchHttpResponse) (data : SearchBody)
    (hs : r.status_code = 200) (hb : r.body = some data) :
    (∀ (m : SearchMatch) (ms : List SearchMatch),
      data.search = some (m :: ms) → search_wikidata r = some (m.id, m.label)) ∧
    (data.search = some [] → search_wikidata r = none) ∧
    (data.search = none → search_wikidata r = none) := by
  refine ⟨?_, ?_, ?_⟩
  · intro m ms hsearch
    simp [search_wikidata, hs, hb, hsearch]
  · intro hsearch
    simp [search_wikidata, hs, hb, hsearch]
  · intro hsearch
    simp [search_wikidata, hs, hb, hsearch]

theorem resolver_first_match_witness :
    search_wikidata
      (SearchHttpResponse.mk 200
        (some (SearchBody.mk (some [SearchMatch.mk "Q937" "Albert Einstein",
                                    SearchMatch.mk "Q5" "human"]))))
      = some ("Q937", "Albert Einstein") :=
  (resolver_first_match _
      (SearchBody.mk (some [SearchMatch.mk "Q937" "Albert Einstein",
                            SearchMatch.mk "Q5" "human"])) rfl rfl).1
    (SearchMatch.mk "Q937" "Albert Einstein") [SearchMatch.mk "Q5" "human"] rfl

/-- C5: a keyword whose search response has a non-success status or a
non-parseable body resolves to nothing, so the loop's `filterMap` omits that
keyword from the results table, while every keyword the resolver does map to
an entity still gets its row; no exception interrupts the loop (the embedded
loop is a total function). -/
theorem resolver_failure_skips (net : String → SearchHttpResponse) (k : String)
    (hfail : (net k).status_code ≠ 200 ∨ (net k).body = none) :
    search_wikidata (net k) = none ∧
    (∀ counts : List (String × Nat),
      (∀ row ∈ resolveRows (fun e => search_wikidata (net e)) counts, row.keyword ≠ k) ∧
      (∀ (k2 : String) (c2 : Nat) (qid lab : String), (k2, c2) ∈ counts →
        search_wikidata (net k2) = some (qid, lab) →
        ResultRow.mk k2 c2 lab qid ∈ resolveRows (fun e => search_wikidata (net e)) counts)) := by
  have hnone : search_wikidata (net k) = none := by
    rcases hfail with h | h
    · simp [search_wikidata, h]
    · rw [search_wikidata, h]
      split <;> rfl
  refine ⟨hnone, fun counts => ⟨?_, ?_⟩⟩
  · intro row hrow
    rcases List.mem_filterMap.mp hrow with ⟨p, _, hp⟩
    simp only at hp
    rcases hres : search_wikidata (net p.1) with _ | q
    · simp [hres] at hp
    · rcases q with ⟨qid, lab⟩
      simp only [hres, Option.some.injEq] at hp
      intro hk
      rw [← hp] at hk
      have hpk : p.1 = k := hk
      rw [hpk, hnone] at hres
      exact Option.noConfusion hres
  · intro k2 c2 qid lab hmem hres
    exact List.mem_filterMap.mpr ⟨(k2, c2), hmem, by simp [hres]⟩

theorem resolver_failure_skips_witness :
    search_wikidata ((fun _ : String => SearchHttpResponse.mk 500 none) "relativity") = none :=
  (resolver_failure_skips (fun _ => SearchHttpResponse.mk 500 none) "relativity"
    (Or.inl (by decide))).1

/-- C6: the rank classification is a total function into the four labels:
the three recognized rank values map to `Normal`, `Preferred` and
`Deprecated`, and every other value maps to `Unknown`. -/
theorem rank_classification_correct (r : String) :
    (rankLabel r = "Normal" ∨ rankLabel r = "Preferred" ∨
     rankLabel r = "Deprecated" ∨ rankLabel r = "Unknown") ∧
    rankLabel "wikibase:NormalRank" = "Normal" ∧
    rankLabel "wikibase:PreferredRank" = "Preferred" ∧
    rankLabel "wikibase:DeprecatedRank" = "Deprecated" ∧
    (r ≠ "wikibase:NormalRank" → r ≠ "wikibase:PreferredRank" →
      r ≠ "wikibase:DeprecatedRank" → rankLabel r = "Unknown") := by
  refine ⟨?_, by simp [rankLabel], by simp [rankLabel], by simp [rankLabel], ?_⟩
  · unfold rankLabel
    split_ifs <;> simp
  · intro h1 h2 h3
    simp [rankLabel, h1, h2, h3]

theorem rank_classification_correct_witness :
    rankLabel "wikibase:SomeFutureRank" = "Unknown" :=
  (rank_classification_correct "wikibase:SomeFutureRank").2.2.2.2
    (by decide) (by decide) (by decide)

/-- C7: flattening a binding yields one record whose fields come from the
binding's label fields, whose `value` falls back to the raw statement value
when no value label resolved, and in which every missing optional field is
simply absent; a binding with no qualifier fields gives empty qualifier
fields while present core fields stay present. -/
theorem flattening_correct (b : Binding) :
    ((flattenBinding b).property = b.propertyLabel ∧
     (flattenBinding b).qualifier = b.qualifierPropertyLabel ∧
     (flattenBinding b).qualifier_value = b.qualifierValueLabel ∧
     (flattenBinding b).unit = b.unitOfMeasureLabel ∧
     (flattenBinding b).rank = b.statementRankLabel) ∧
    (b.statementValueLabel = none → (flattenBinding b).value = b.statementValue) ∧
    (∀ v, b.statementValueLabel = some v → (flattenBinding b).value = some v) ∧
    (∀ uri, b.property = some uri → uri ≠ "" →
      (flattenBinding b).property_id = some (lastUriSegment uri)) ∧
    (b.property = none → (flattenBinding b).property_id = none) := by
  refine ⟨⟨rfl, rfl, rfl, rfl, rfl⟩, ?_, ?_, ?_, ?_⟩
  · intro h
    simp [flattenBinding, h]
  · intro v h
    simp [flattenBinding, h]
  · intro uri h hne
    simp [flattenBinding, h, hne]
  · intro h
    simp [flattenBinding, h]

theorem flattening_correct_witness :
    (flattenBinding (Binding.mk (some "http://www.wikidata.org/entity/P569")
        (some "date of birth") (some "1879-03-14") none
        none none none none none none (some "Normal"))).value = some "1879-03-14" ∧
    (flattenBinding (Binding.mk (some "http://www.wikidata.org/entity/P569")
        (some "date of birth") (some "1879-03-14") none
        none none none none none none (some "Normal"))).qualifier = none ∧
    (flattenBinding (Binding.mk (some "http://www.wikidata.org/entity/P569")
        (some "date of birth") (some "1879-03-14") none
        none none none none none none (some "Normal"))).property_id =
      some (lastUriSegment "http://www.wikidata.org/entity/P569") :=
  ⟨(flattening_correct _).2.1 rfl,
   (flattening_correct (Binding.mk (some "http://www.wikidata.org/entity/P569")
        (some "date of birth") (some "1879-03-14") none
        none none none none none none (some "Normal"))).1.2.1,
   (flattening_correct _).2.2.2.1 "http://www.wikidata.org/entity/P569" rfl (by decide)⟩

/-- C8: an empty bindings list yields the empty row sequence, while a
non-parseable body or a response missing the `results`/`bindings` structure
yields an error that the fetcher does not catch, and the two outcomes are
distinct values. -/
theorem statement_fetcher_empty_vs_error :
    get_all_statements (some (SparqlBody.mk (some (SparqlResults.mk (some []))))) =
      Except.ok [] ∧
    (∀ bs : List Binding,
      get_all_statements (some (SparqlBody.mk (some (SparqlResults.mk (some bs))))) =
        Except.ok (bs.map flattenBinding)) ∧
    get_all_statements none = Except.error FetchError.json_decode_error ∧
    (∀ body : SparqlBody, body.results = none →
      get_all_statements (some body) = Except.error (FetchError.key_error "results")) ∧
    (∀ (body : SparqlBody) (res : SparqlResults), body.results = some res →
      res.bindings = none →
      get_all_statements (some body) = Except.error (FetchError.key_error "bindings")) ∧
    (∀ e : FetchError,
      (Except.error e : Except FetchError (List StatementRow)) ≠ Except.ok []) := by
  refine ⟨rfl, fun bs => rfl, rfl, ?_, ?_, fun e => by simp⟩
  · intro body h
    simp [get_all_statements, h]
  · intro body res h1 h2
    simp [get_all_statements, h1, h2]

theorem statement_fetcher_empty_vs_error_witness :
    get_all_statements (some (SparqlBody.mk none)) =
      Except.error (FetchError.key_error "results") ∧
    get_all_statements (some (SparqlBody.mk (some (SparqlResults.mk none)))) =
      Except.error (FetchError.key_error "bindings") ∧
    (Except.error FetchError.json_decode_error :
      Except FetchError (List StatementRow)) ≠ Except.ok [] :=
  ⟨statement_fetcher_empty_vs_error.2.2.2.1 (SparqlBody.mk none) rfl,
   statement_fetcher_empty_vs_error.2.2.2.2.1
     (SparqlBody.mk (some (SparqlResults.mk none))) (SparqlResults.mk none) rfl rfl,
   statement_fetcher_empty_vs_error.2.2.2.2.2 FetchError.json_decode_error⟩

/-- C9: entering and leaving the detail view only touches the selection; the
stored results list survives both transitions unchanged. -/
theorem detail_transitions_preserve_results (s : SessionState) (E : String) :
    (select_qid s E).results = s.results ∧ (go_back s).results = s.results :=
  ⟨rfl, rfl⟩

/-- C10: a run that extracted at least one keyword but resolved none of them
leaves the stored results and the selection untouched and only reports the
"no Wikidata matches" warning. -/
theorem empty_run_preserves_state (resolver : String → Option (String × String))
    (all_entities : List String) (s : SessionState)
    (h1 : all_entities ≠ [])
    (h2 : ∀ k ∈ all_entities, resolver k = none) :
    processCompletion resolver all_entities s = (s, some Notice.no_wikidata_matches) ∧
    (processCompletion resolver all_entities s).1.results = s.results ∧
    (processCompletion resolver all_entities s).1.selected_qid = s.selected_qid ∧
    screen (processCompletion resolver all_entities s).1 = screen s := by
  have hrows : resolveRows resolver (counterItems all_entities) = [] := by
    rw [resolveRows, List.filterMap_eq_nil_iff]
    intro p hp
    rcases List.mem_map.mp hp with ⟨kk, hkk, rfl⟩
    have hk : kk ∈ all_entities := (mem_counterKeys kk all_entities).mp hkk
    simp [h2 kk hk]
  have hmain : processCompletion resolver all_entities s =
      (s, some Notice.no_wikidata_matches) := by
    rcases all_entities with _ | ⟨a, rest⟩
    · exact absurd rfl h1
    · simp [processCompletion, hrows]
  exact ⟨hmain, by rw [hmain], by rw [hmain], by rw [hmain]⟩

theorem empty_run_preserves_state_witness :
    processCompletion (fun _ => none) ["alpha"]
        (SessionState.mk (some "Q937") [ResultRow.mk "albert" 1 "Albert Einstein" "Q937"]) =
      (SessionState.mk (some "Q937") [ResultRow.mk "albert" 1 "Albert Einstein" "Q937"],
       some Notice.no_wikidata_matches) :=
  (empty_run_preserves_state (fun _ => none) ["alpha"]
    (SessionState.mk (some "Q937") [ResultRow.mk "albert" 1 "Albert Einstein" "Q937"])
    (by decide) (fun k _ => rfl)).1

/-- C1 counterexample: a processing run that extracted a keyword but resolved
no entities completes without replacing the stored results or clearing the
selection — the prior DETAIL view stays active — refuting "completing a new
processing run always replaces the stored results ... and clears any prior
selection". -/
theorem controller_run_reset_counterexample :
    (processCompletion (fun _ => none) ["einstein"]
        (SessionState.mk (some "Q937")
          [ResultRow.mk "albert einstein" 1 "Albert Einstein" "Q937"])).1.selected_qid
      = some "Q937" ∧
    screen (processCompletion (fun _ => none) ["einstein"]
        (SessionState.mk (some "Q937")
          [ResultRow.mk "albert einstein" 1 "Albert Einstein" "Q937"])).1
      = Screen.DETAIL := by
  decide

/-- C1 (amended): "inspect entity E" sets the selection to E and yields the
DETAIL screen; "back" clears the selection (yielding RESULTS whenever results
are stored); and a processing run whose resolved result list is NON-EMPTY
replaces the stored results, clears any prior selection and yields RESULTS
even from an active DETAIL view.  (A completed run whose resolved result list
is empty leaves the state unchanged; see the counterexample.) -/
theorem controller_transitions (s : SessionState) (E : String) (hE : E ≠ "") :
    (select_qid s E).selected_qid = some E ∧
    screen (select_qid s E) = Screen.DETAIL ∧
    (go_back s).selected_qid = none ∧
    (s.results ≠ [] → screen (go_back s) = Screen.RESULTS) ∧
    (∀ (resolver : String → Option (String × String)) (all_entities : List String),
      all_entities ≠ [] →
      resolveRows resolver (counterItems all_entities) ≠ [] →
      (processCompletion resolver all_entities s).1 =
        SessionState.mk none (resolveRows resolver (counterItems all_entities)) ∧
      (processCompletion resolver all_entities s).1.selected_qid = none ∧
      screen (processCompletion resolver all_entities s).1 = Screen.RESULTS) := by
  refine ⟨rfl, ?_, rfl, ?_, ?_⟩
  · simp [screen, select_qid, truthyQid, hE]
  · intro h
    rcases hres : s.results with _ | ⟨r, rs⟩
    · exact absurd hres h
    · simp [screen, go_back, truthyQid, hres]
  · intro resolver all_entities hne hrows
    rcases all_entities with _ | ⟨a, rest⟩
    · exact absurd rfl hne
    · rcases hr : resolveRows resolver (counterItems (a :: rest)) with _ | ⟨row, rows⟩
      · exact absurd hr hrows
      · refine ⟨?_, ?_, ?_⟩ <;> simp [processCompletion, hr, screen, truthyQid]

theorem controller_transitions_witness :
    (select_qid (SessionState.mk (some "Q1") [ResultRow.mk "k" 1 "L" "Q2"]) "Q937").selected_qid
      = some "Q937" ∧
    screen (select_qid (SessionState.mk (some "Q1") [ResultRow.mk "k" 1 "L" "Q2"]) "Q937")
      = Screen.DETAIL ∧
    (go_back (SessionState.mk (some "Q1") [ResultRow.mk "k" 1 "L" "Q2"])).selected_qid = none ∧
    screen (go_back (SessionState.mk (some "Q1") [ResultRow.mk "k" 1 "L" "Q2"]))
      = Screen.RESULTS ∧
    (processCompletion (fun _ => some ("Q937", "Albert Einstein")) ["einstein"]
        (SessionState.mk (some "Q1") [ResultRow.mk "k" 1 "L" "Q2"])).1.selected_qid = none ∧
    screen (processCompletion (fun _ => some ("Q937", "Albert Einstein")) ["einstein"]
        (SessionState.mk (some "Q1") [ResultRow.mk "k" 1 "L" "Q2"])).1 = Screen.RESULTS := by
  have h := controller_transitions
    (SessionState.mk (some "Q1") [ResultRow.mk "k" 1 "L" "Q2"]) "Q937" (by decide)
  have h5 := h.2.2.2.2 (fun _ => some ("Q937", "Albert Einstein")) ["einstein"]
    (by decide) (by decide)
  exact ⟨h.1, h.2.1, h.2.2.1, h.2.2.2.1 (by decide), h5.2.1, h5.2.2⟩

end App
